import Mathlib

/-!
Verification development for the intelligent-data-agents orchestrator core.

The Python source (orchestrator-api) is embedded shallowly:
* `llm/pattern_analyzer.py` — the intent classifier (`PatternAnalyzer`),
* `llm/gemini_client.py` — the remote-stage response validation and its
  keyword fallback,
* `agents/orchestrator.py` — the strategy selector and execution engine,
* `mcp/base.py` plus the agents — the capability-protocol `handle_request`.

Machine integers do not occur; Python floats for the fixed confidence
constants are modelled as rationals.  Python exceptions are modelled with
`Except String`; `dict` objects are modelled as insertion-ordered
association lists, matching CPython dict ordering semantics.
-/

namespace IDA

/-- A Python value, as far as the embedded code inspects one: the JSON
object returned by the remote model may carry booleans, strings, numbers
or null in any field. -/
inductive PyVal where
  | pyBool (b : Bool)
  | pyStr (s : String)
  | pyInt (n : Int)
  | pyNone
deriving DecidableEq

/-- Python truthiness, used by `bool(x)` coercion in
`GeminiClient._validate_analysis_result`. -/
def PyVal.truthy : PyVal → Bool
  | .pyBool b => b
  | .pyStr s => decide (s ≠ "")
  | .pyInt n => decide (n ≠ 0)
  | .pyNone => false

/-- Python `str(x)` as used in f-string interpolation of a JSON field. -/
def PyVal.toStr : PyVal → String
  | .pyBool b => if b then "True" else "False"
  | .pyStr s => s
  | .pyInt n => toString n
  | .pyNone => "None"

/-- The analysis dict produced by `PatternAnalyzer` (the format documented
in `analyze_query`'s docstring).  Keys that the source only sometimes adds
(`from_cache`, `error`, `emergency_mode`, `llm_reasoning`,
`suggested_approach`) are modelled as fields with absent-markers; the
sometimes-not-yet-set `analysis_method`/`confidence` keys are modelled as
fields that every code path assigns before the dict escapes
`analyze_query`. -/
structure AnalysisResult where
  original_query : String
  needs_graph : Bool
  needs_relational : Bool
  needs_both : Bool
  complexity : String
  identified_patterns : List String
  suggested_agents : List String
  analysis_method : String
  confidence : ℚ
  from_cache : Bool := false
  error : Option String := none
  emergency_mode : Bool := false
  llm_reasoning : Option String := none
  suggested_approach : Option PyVal := none
deriving DecidableEq

/-- A sample analysis value, used by witnesses that need some concrete
`AnalysisResult`. -/
def sampleAnalysis : AnalysisResult :=
  { original_query := "q"
    needs_graph := true
    needs_relational := true
    needs_both := true
    complexity := "simple"
    identified_patterns := []
    suggested_agents := ["neo4j", "postgres"]
    analysis_method := "llm"
    confidence := 0.9 }

/-! ### Association-list model of Python dicts -/

/-- Python dict key lookup (`d[k]` after `k in d`). -/
def lookupDict {β : Type _} : List (String × β) → String → Option β
  | [], _ => none
  | p :: rest, k => if p.1 = k then some p.2 else lookupDict rest k

/-- Keys of a dict, in insertion order. -/
def keysOf {β : Type _} (l : List (String × β)) : List String :=
  l.map Prod.fst

/-- Python dict assignment `d[k] = v`: replaces the value in place if the
key is present (keeping its position), otherwise appends the new pair.
Also models `\x7b**d, k: v\x7d` merging in one extra key. -/
def dictInsert {β : Type _} (l : List (String × β)) (k : String) (v : β) :
    List (String × β) :=
  if l.any (fun p => p.1 == k) then
    l.map (fun p => if p.1 = k then (k, v) else p)
  else
    l ++ [(k, v)]

/-! ### Plain-substring matching

Python's `word in query_lower` membership test on strings is substring
containment; `re.search(pattern, query_lower)` with the literal keyword
patterns of this code base likewise succeeds exactly when the pattern
occurs inside the query. -/

/-- `strContainsSub hay needle` holds when `needle` occurs as a contiguous
substring of `hay`. -/
def strContainsSub (hay needle : String) : Bool :=
  let h := hay.data
  let n := needle.data
  (List.range (h.length + 1)).any (fun i => n.isPrefixOf (h.drop i))

/-- Python `str.lower()` on the ASCII range (all queries and keywords the
source compares are lowered ASCII letters), implemented over the character
list so that it evaluates by kernel reduction. -/
def strLower (s : String) : String :=
  String.mk (s.data.map Char.toLower)

/-- The whitespace set removed by Python `str.strip()`. -/
def isPyWhitespace (c : Char) : Bool :=
  c = ' ' || c = '\t' || c = '\n' || c = '\r' || c = '\x0b' || c = '\x0c'

/-- Python `str.strip()`: drop leading and trailing whitespace. -/
def pyStrip (s : String) : String :=
  String.mk (((s.data.dropWhile isPyWhitespace).reverse.dropWhile isPyWhitespace).reverse)

/-! ### GeminiClient (llm/gemini_client.py) -/

/-- The parsed JSON object handed to `_validate_analysis_result`: each of
the six documented fields may be absent or hold an arbitrary value. -/
structure GeminiRaw where
  needs_postgresql : Option PyVal := none
  needs_neo4j : Option PyVal := none
  needs_both : Option PyVal := none
  complexity : Option PyVal := none
  reasoning : Option PyVal := none
  suggested_approach : Option PyVal := none
deriving DecidableEq

/-- The dict returned by `GeminiClient.analyze_query_intent` after
validation (or by `_fallback_intent_analysis`). -/
structure GeminiAnalysis where
  needs_postgresql : Bool
  needs_neo4j : Bool
  needs_both : Bool
  complexity : String
  reasoning : String
  suggested_approach : Option PyVal := none
  fallback_used : Bool := false
deriving DecidableEq

/-- Helper for the required-field check of `_validate_analysis_result`:
a missing field raises `ValueError`. -/
def requireField (v : Option PyVal) (fieldName : String) : Except String PyVal :=
  match v with
  | some x => .ok x
  | none => .error ("ValueError: campo requerido " ++ fieldName ++ " no encontrado")

/-- `GeminiClient._validate_analysis_result` (gemini_client.py:365-396):
checks the five required fields, coerces the three flags to booleans,
clamps `complexity` to the allowed enum (default `simple`), and re-enforces
`needs_both` implying both backend flags. -/
def validate_analysis_result (r : GeminiRaw) : Except String GeminiAnalysis := do
  let np ← requireField r.needs_postgresql "needs_postgresql"
  let nn ← requireField r.needs_neo4j "needs_neo4j"
  let nb ← requireField r.needs_both "needs_both"
  let comp ← requireField r.complexity "complexity"
  let reas ← requireField r.reasoning "reasoning"
  let npB := np.truthy
  let nnB := nn.truthy
  let nbB := nb.truthy
  let compS :=
    match comp with
    | .pyStr s => if s = "simple" ∨ s = "hybrid" ∨ s = "complex" then s else "simple"
    | _ => "simple"
  let npB := if nbB then true else npB
  let nnB := if nbB then true else nnB
  .ok { needs_postgresql := npB
        needs_neo4j := nnB
        needs_both := nbB
        complexity := compS
        reasoning := reas.toStr
        suggested_approach := r.suggested_approach }

/-- The SQL keyword list of `GeminiClient._fallback_intent_analysis`. -/
def geminiSqlKeywords : List String :=
  ["tabla", "table", "contar", "count", "suma", "sum",
   "promedio", "average", "estadística", "statistic",
   "registro", "record", "columna", "column", "filtro", "filter"]

/-- The graph keyword list of `GeminiClient._fallback_intent_analysis`. -/
def geminiGraphKeywords : List String :=
  ["grafo", "graph", "relación", "relation", "conexión", "connection",
   "nodo", "node", "camino", "path", "red", "network", "similar",
   "recomendación", "recommendation", "patrón", "pattern"]

/-- `GeminiClient._fallback_intent_analysis` (gemini_client.py:398-443):
keyword counting over the lowercased query; when neither keyword set
matches, both backends are selected for safety. -/
def fallback_intent_analysis (query : String) : GeminiAnalysis :=
  let query_lower := strLower query
  let sql_matches := (geminiSqlKeywords.filter (fun k => strContainsSub query_lower k)).length
  let graph_matches := (geminiGraphKeywords.filter (fun k => strContainsSub query_lower k)).length
  let needs_postgresql := decide (sql_matches > 0)
  let needs_neo4j := decide (graph_matches > 0)
  let needs_both := needs_postgresql && needs_neo4j
  let (needs_postgresql, needs_neo4j, needs_both) :=
    if !needs_postgresql && !needs_neo4j then (true, true, true)
    else (needs_postgresql, needs_neo4j, needs_both)
  { needs_postgresql := needs_postgresql
    needs_neo4j := needs_neo4j
    needs_both := needs_both
    complexity := if needs_both then "hybrid" else "simple"
    reasoning := "Análisis de fallback: SQL keywords=" ++ toString sql_matches ++
                 ", Graph keywords=" ++ toString graph_matches
    suggested_approach := some (.pyStr "Usar patrones de palabras clave como fallback")
    fallback_used := true }

/-- Outcome of the remote text-generation round trip as seen by
`analyze_query_intent`: either the call or the JSON parse raised, or a
parsed object was obtained. -/
inductive RemoteOutcome where
  | failure (msg : String)
  | parsed (raw : GeminiRaw)
deriving DecidableEq

/-- `GeminiClient.analyze_query_intent` (gemini_client.py:255-296): any
exception from generation, parsing, or validation is caught and answered
with the keyword fallback, so this operation never raises. -/
def analyze_query_intent (remote : RemoteOutcome) (query : String) : GeminiAnalysis :=
  match remote with
  | .failure _ => fallback_intent_analysis query
  | .parsed raw =>
      match validate_analysis_result raw with
      | .ok v => v
      | .error _ => fallback_intent_analysis query

/-! ### PatternAnalyzer (llm/pattern_analyzer.py) -/

/-- The three heuristic pattern sets read through
`self.fallback_patterns`. -/
structure PatternTables where
  graph_patterns : List String
  sql_patterns : List String
  hybrid_patterns : List String
deriving DecidableEq

/-- Modelled from the spec: the heuristic pattern tables themselves are
missing from the source — `PatternAnalyzer.__init__` never assigns
`self.fallback_patterns`, although `_analyze_with_fallback` and
`get_capabilities` read it.  Following §4.2/§8 of the spec, the three sets
hold graph-indicative, relational-indicative and hybrid-indicative
keywords. -/
def specPatternTables : PatternTables :=
  { graph_patterns := ["graph", "grafo", "relationship", "node", "nodo", "connection", "network", "path"]
    sql_patterns := ["table", "tabla", "record", "column", "statistic", "count", "sum", "average"]
    hybrid_patterns := ["combine", "combinar", "compare both", "integrate", "integrar"] }

/-- The in-memory state of a `PatternAnalyzer` instance.  The three
`Option` fields model attributes/keys the source reads but never
initializes: `fallback_only`, `fallback_patterns` (attributes absent from
`__init__`) and `stats["fallback_queries"]` (key absent from the `stats`
dict).  `none` means the Python attribute/key does not exist, so reading
it raises. -/
structure AnalyzerState where
  initialized : Bool
  llm_available : Bool
  fallback_only : Option Bool
  fallback_patterns : Option PatternTables
  analysis_cache : List (String × AnalysisResult)
  cache_max_size : Nat
  stats_total_queries : Nat
  stats_llm_queries : Nat
  stats_fallback_queries : Option Nat
  stats_cache_hits : Nat
  stats_errors : Nat
deriving DecidableEq

/-- `PatternAnalyzer.__init__` (pattern_analyzer.py:41-68): fresh state.
Note which fields it does *not* create. -/
def mkPatternAnalyzer (cacheMaxSize : Nat) : AnalyzerState :=
  { initialized := false
    llm_available := false
    fallback_only := none
    fallback_patterns := none
    analysis_cache := []
    cache_max_size := cacheMaxSize
    stats_total_queries := 0
    stats_llm_queries := 0
    stats_fallback_queries := none
    stats_cache_hits := 0
    stats_errors := 0 }

/-- `PatternAnalyzer.initialize` (pattern_analyzer.py:70-95): the Gemini
client round trip is abstracted into the boolean `geminiOk`; on failure
`llm_available` stays false, `initialized` stays false, and the wrapped
error is re-raised. -/
def initializeAnalyzer (st : AnalyzerState) (geminiOk : Bool) :
    Except String AnalyzerState :=
  if st.initialized then .ok st
  else if geminiOk then .ok { st with llm_available := true, initialized := true }
  else .error "No se pudo inicializar el analizador IA"

/-- Pair ordering used to model Python's `sorted(context.items())`. -/
def ctxPairLe (a b : String × String) : Bool :=
  match compare a.1 b.1 with
  | .lt => true
  | .gt => false
  | .eq => compare a.2 b.2 ≠ Ordering.gt

/-- Insertion step of the sort modelling `sorted`. -/
def insertCtxSorted (x : String × String) : List (String × String) → List (String × String)
  | [] => [x]
  | y :: ys => if ctxPairLe x y then x :: y :: ys else y :: insertCtxSorted x ys

/-- Sorting context items by key then value, as Python `sorted` does on
pairs of strings. -/
def sortCtxPairs (l : List (String × String)) : List (String × String) :=
  l.foldr insertCtxSorted []

/-- Rendering of `str(sorted(context.items()))`.  Python's `repr` quoting
of the strings is elided; the claims only ever compare renderings of equal
contexts, for which any fixed rendering is faithful. -/
def renderCtxItems (l : List (String × String)) : String :=
  "[" ++ String.intercalate ", " (l.map (fun p => "(" ++ p.1 ++ ", " ++ p.2 ++ ")")) ++ "]"

/-- The MD5 digest used for over-long cache keys.  `hashlib.md5` is an
external library; it is modelled as a fixed deterministic 128-bit fold
rendered in hex — the embedded code relies only on the digest being a
function of its input. -/
def md5_hex (s : String) : String :=
  let h := s.data.foldl (fun a c => (a * 131 + c.toNat) % (2 ^ 128)) 7
  (Nat.toDigits 16 h).asString

/-- `PatternAnalyzer._generate_cache_key` (pattern_analyzer.py:341-359):
lowercase and trim the query, append the sorted-context rendering, hash
when longer than 200 characters. -/
def generate_cache_key (query : String) (context : List (String × String)) : String :=
  let normalized_query := pyStrip (strLower query)
  let context_str := if context ≠ [] then renderCtxItems (sortCtxPairs context) else ""
  let cache_key := normalized_query ++ "|" ++ context_str
  if cache_key.length > 200 then md5_hex cache_key else cache_key

/-- The eviction loop of `_cache_result`: `while len(cache) >= max: del
oldest`.  For `maxSize ≥ 1` this terminates exactly like the source; the
source additionally raises `StopIteration` when `maxSize = 0` meets an
empty dict, a configuration the claims exclude. -/
def fifoEvict (maxSize : Nat) : List (String × AnalysisResult) → List (String × AnalysisResult)
  | [] => []
  | p :: rest => if (p :: rest).length ≥ maxSize then fifoEvict maxSize rest else p :: rest

/-- The transient-field stripping of `_cache_result`
(`pop("error")`, `pop("from_cache")`, `pop("emergency_mode")`). -/
def clean_result (r : AnalysisResult) : AnalysisResult :=
  { r with error := none, from_cache := false, emergency_mode := false }

/-- `PatternAnalyzer._cache_result` (pattern_analyzer.py:361-377): evict
FIFO until below the bound, then store a cleaned copy under the key. -/
def cache_result (maxSize : Nat) (cache : List (String × AnalysisResult))
    (key : String) (r : AnalysisResult) : List (String × AnalysisResult) :=
  dictInsert (fifoEvict maxSize cache) key (clean_result r)

/-- Keyword list for the complexity escalation step of
`_analyze_with_fallback`. -/
def complexityKeywords : List String :=
  ["combinar", "comparar", "analizar", "todos", "completo", "integrar"]

/-- `PatternAnalyzer._analyze_with_fallback` (pattern_analyzer.py:218-301).
The very first pattern loop reads `self.fallback_patterns`; when the
attribute was never created (as in every state the constructor can reach)
this raises `AttributeError`. -/
def analyze_with_fallback (st : AnalyzerState) (query : String) :
    Except String AnalysisResult :=
  match st.fallback_patterns with
  | none => .error "AttributeError: PatternAnalyzer object has no attribute fallback_patterns"
  | some pats =>
    let query_lower := strLower query
    let graph_found := (pats.graph_patterns.filter (fun p => strContainsSub query_lower p)).map
      (fun p => "graph: " ++ p)
    let graph_matches := graph_found.length
    let sql_found := (pats.sql_patterns.filter (fun p => strContainsSub query_lower p)).map
      (fun p => "sql: " ++ p)
    let sql_matches := sql_found.length
    let hybrid_found := (pats.hybrid_patterns.filter (fun p => strContainsSub query_lower p)).map
      (fun p => "hybrid: " ++ p)
    let hybrid_matches := hybrid_found.length
    let (needs_both, needs_graph, needs_relational, complexity, suggested_agents) :=
      if hybrid_matches > 0 then
        (true, true, true, "hybrid", ["neo4j", "postgres"])
      else if graph_matches > sql_matches then
        (false, true, false, "simple", ["neo4j"])
      else if sql_matches > graph_matches then
        (false, false, true, "simple", ["postgres"])
      else
        (true, true, true, "exploratory", ["neo4j", "postgres"])
    let complexity :=
      if complexityKeywords.any (fun w => strContainsSub query_lower w) then "complex"
      else complexity
    .ok { original_query := query
          needs_graph := needs_graph
          needs_relational := needs_relational
          needs_both := needs_both
          complexity := complexity
          identified_patterns := graph_found ++ sql_found ++ hybrid_found
          suggested_agents := suggested_agents
          analysis_method := ""
          confidence := 0 }

/-- `PatternAnalyzer._emergency_analysis` (pattern_analyzer.py:303-321):
the conservative result that selects both agents. -/
def emergency_analysis (query : String) : AnalysisResult :=
  { original_query := query
    needs_graph := true
    needs_relational := true
    needs_both := true
    complexity := "unknown"
    identified_patterns := ["emergency_fallback"]
    suggested_agents := ["neo4j", "postgres"]
    analysis_method := ""
    confidence := 0
    emergency_mode := true }

/-- `PatternAnalyzer._determine_agents_from_llm`
(pattern_analyzer.py:323-339). -/
def determine_agents_from_llm (v : GeminiAnalysis) : List String :=
  let agents := (if v.needs_postgresql then ["postgres"] else []) ++
                (if v.needs_neo4j then ["neo4j"] else [])
  if agents = [] then ["neo4j", "postgres"] else agents

/-- `PatternAnalyzer._analyze_with_llm` (pattern_analyzer.py:183-216):
maps the validated remote analysis into the orchestrator format.  Since
`analyze_query_intent` never raises, the internal fallback branch of this
method is dead. -/
def analyze_with_llm (v : GeminiAnalysis) (query : String) : AnalysisResult :=
  { original_query := query
    needs_graph := v.needs_neo4j
    needs_relational := v.needs_postgresql
    needs_both := v.needs_both
    complexity := v.complexity
    identified_patterns := ["llm_reasoning: " ++ v.reasoning]
    suggested_agents := determine_agents_from_llm v
    analysis_method := ""
    confidence := 0
    llm_reasoning := some v.reasoning
    suggested_approach := some (v.suggested_approach.getD (.pyStr "")) }

/-- The heuristic arm of `analyze_query`'s try-block
(pattern_analyzer.py:153-158): run the regex fallback, tag it with
`fallback`/0.7, then `self.stats["fallback_queries"] += 1` — a key the
constructor never created, so the increment raises `KeyError` even when
the heuristic itself succeeded. -/
def heuristicStage (st : AnalyzerState) (query : String) :
    Except String (AnalysisResult × AnalyzerState) :=
  match analyze_with_fallback st query with
  | .error e => .error e
  | .ok r =>
    let r := { r with analysis_method := "fallback", confidence := 0.7 }
    match st.stats_fallback_queries with
    | none => .error "KeyError: fallback_queries"
    | some n => .ok (r, { st with stats_fallback_queries := some (n + 1) })

/-- The try-block of `analyze_query` (pattern_analyzer.py:144-158): the
guard `self.llm_available and not self.fallback_only` short-circuits, so
the never-assigned `fallback_only` attribute is only read (and only
raises) when `llm_available` is true. -/
def tryStage (st : AnalyzerState) (query : String) (remote : RemoteOutcome) :
    Except String (AnalysisResult × AnalyzerState) :=
  if st.llm_available then
    match st.fallback_only with
    | none => .error "AttributeError: PatternAnalyzer object has no attribute fallback_only"
    | some fo =>
      if fo = false then
        let v := analyze_query_intent remote query
        let r := { analyze_with_llm v query with analysis_method := "llm", confidence := 0.9 }
        .ok (r, { st with stats_llm_queries := st.stats_llm_queries + 1 })
      else heuristicStage st query
  else heuristicStage st query

/-- `PatternAnalyzer.analyze_query` (pattern_analyzer.py:97-181): lazy
initialization (whose failure re-raises), stats bookkeeping, cache lookup,
the staged analysis, caching of successful stage output, and the
emergency catch-all.  `geminiOk` abstracts the Gemini client
initialization outcome, `remote` the remote generation outcome. -/
def analyze_query (st0 : AnalyzerState) (query : String)
    (context : List (String × String)) (geminiOk : Bool) (remote : RemoteOutcome) :
    Except String (AnalysisResult × AnalyzerState) :=
  match (if st0.initialized then .ok st0 else initializeAnalyzer st0 geminiOk :
      Except String AnalyzerState) with
  | .error e => .error e
  | .ok stI =>
    let st := { stI with stats_total_queries := stI.stats_total_queries + 1 }
    let cache_key := generate_cache_key query context
    match lookupDict st.analysis_cache cache_key with
    | some cached =>
        .ok ({ cached with from_cache := true, analysis_method := "cache" },
             { st with stats_cache_hits := st.stats_cache_hits + 1 })
    | none =>
        match tryStage st query remote with
        | .ok (result, st1) =>
            .ok (result,
                 { st1 with analysis_cache :=
                     cache_result st1.cache_max_size st1.analysis_cache cache_key result })
        | .error e =>
            .ok ({ emergency_analysis query with
                     analysis_method := "emergency", confidence := 0.5, error := some e },
                 { st with stats_errors := st.stats_errors + 1 })

/-- A `PatternAnalyzer` in its normal post-initialization state:
`initialize` succeeded, so `llm_available` is true.  The attributes the
constructor never created are still absent. -/
def stReady : AnalyzerState :=
  { mkPatternAnalyzer 100 with initialized := true, llm_available := true }

/-- A `PatternAnalyzer` whose remote stage is unavailable (`llm_available`
false) but that is past initialization. -/
def stNoLlm : AnalyzerState :=
  { mkPatternAnalyzer 100 with initialized := true }

/-- `stNoLlm` with the heuristic pattern tables restored from the spec, to
isolate the second defect on the heuristic path (the missing
`stats["fallback_queries"]` counter). -/
def stNoLlmWithPatterns : AnalyzerState :=
  { stNoLlm with fallback_patterns := some specPatternTables }

/-- Runs two classifications in sequence from `stReady` (empty cache) and
reports (method of first answer, method of second answer, confidence of
second answer, final `cache_hits` counter).  `none` would indicate a
classification that raised. -/
def classifyTwice (q1 q2 : String) : Option (String × String × ℚ × Nat) :=
  match analyze_query stReady q1 [] true (.failure "transport error") with
  | .error _ => none
  | .ok (r1, st1) =>
    match analyze_query st1 q2 [] true (.failure "transport error") with
    | .error _ => none
    | .ok (r2, st2) => some (r1.analysis_method, r2.analysis_method, r2.confidence, st2.stats_cache_hits)

/-! ### OrchestratorAgent (agents/orchestrator.py) -/

/-- The analysis dict built by `OrchestratorAgent._analyze_query`
(orchestrator.py:166-216). -/
structure OrchestratorAnalysis where
  original_query : String
  needs_graph : Bool
  needs_relational : Bool
  needs_both : Bool
  complexity : String
  identified_patterns : List String
  suggested_agents : List String
  analysis_method : String
  confidence : ℚ
  llm_reasoning : Option String := none
  error : Option String := none
deriving DecidableEq

/-- `OrchestratorAgent._analyze_query` (orchestrator.py:166-216): adapts a
successful classifier answer, and on any exception from the classifier
returns the relational-only `emergency_default` analysis. -/
def orchestrator_analyze_query (query : String)
    (outcome : Except String AnalysisResult) : OrchestratorAnalysis :=
  match outcome with
  | .ok a =>
      { original_query := query
        needs_graph := a.needs_graph
        needs_relational := a.needs_relational
        needs_both := a.needs_both
        complexity := a.complexity
        identified_patterns := a.identified_patterns
        suggested_agents := a.suggested_agents
        analysis_method := a.analysis_method
        confidence := a.confidence
        llm_reasoning := a.llm_reasoning }
  | .error e =>
      { original_query := query
        needs_graph := false
        needs_relational := true
        needs_both := false
        complexity := "simple"
        identified_patterns := []
        suggested_agents := ["postgres"]
        analysis_method := "emergency_default"
        confidence := 0.5
        error := some e }

/-- `OrchestratorAgent._determine_execution_strategy`
(orchestrator.py:219-238). -/
def determine_execution_strategy (a : OrchestratorAnalysis) : String :=
  if a.needs_both then
    if a.complexity = "hybrid" then "sequential" else "parallel"
  else if a.suggested_agents.length = 1 then "single_agent"
  else "parallel"

/-- A per-agent entry of a parallel execution's `results` mapping: the
agent's data, or the captured `\x7berror: message\x7d` entry when its task
raised. -/
inductive AgentOutput (V : Type _) where
  | data (v : V)
  | errorEntry (msg : String)
deriving DecidableEq

/-- The Execution Result of `_execute_parallel`. -/
structure ParallelResult (V : Type _) where
  results : List (String × AgentOutput V)
  agents_used : List String
  strategy : String
deriving DecidableEq

/-- `OrchestratorAgent._execute_parallel` (orchestrator.py:281-312): one
task per suggested agent (neo4j first, as in the source), gathered with
exception capture; a raising task contributes an error entry instead of
aborting the call.  The two `Except` arguments are the outcomes of the two
per-agent natural-language calls. -/
def execute_parallel {V : Type _} (suggested : List String)
    (neo4jOutcome postgresOutcome : Except String V) : ParallelResult V :=
  let pairs :=
    (if suggested.contains "neo4j" then [("neo4j", neo4jOutcome)] else []) ++
    (if suggested.contains "postgres" then [("postgres", postgresOutcome)] else [])
  { results := pairs.map (fun p =>
      (p.1, match p.2 with
            | .ok d => AgentOutput.data d
            | .error e => AgentOutput.errorEntry e))
    agents_used := pairs.map Prod.fst
    strategy := "parallel" }

/-- One step record of a sequential execution. -/
structure SeqStep (V : Type _) where
  agent : String
  result : V
deriving DecidableEq

/-- The Execution Result of `_execute_sequential`. -/
structure SequentialResult (V : Type _) where
  results : List (SeqStep V)
  agents_used : List String
  strategy : String
deriving DecidableEq

/-- `OrchestratorAgent._execute_sequential` (orchestrator.py:314-340):
when both `postgres` and `neo4j` occur among the suggested agents, run the
relational call first, then the graph call with the context augmented by
the relational raw output under key `postgres_data`; otherwise the step
list stays empty.  The two call arguments model
`_query_postgres_natural`/`_query_neo4j_natural` as functions of the query
and the context they receive. -/
def execute_sequential {V : Type _} (query : String) (context : List (String × V))
    (suggested : List String)
    (postgresCall neo4jCall : String → List (String × V) → V) : SequentialResult V :=
  if suggested.contains "postgres" && suggested.contains "neo4j" then
    let postgres_result := postgresCall query context
    let enhanced_context := dictInsert context "postgres_data" postgres_result
    let neo4j_result := neo4jCall query enhanced_context
    { results := [{ agent := "postgres", result := postgres_result },
                  { agent := "neo4j", result := neo4j_result }]
      agents_used := ["postgres", "neo4j"]
      strategy := "sequential" }
  else
    { results := [], agents_used := [], strategy := "sequential" }

/-- `OrchestratorAgent._query_neo4j_natural` (orchestrator.py:362-380),
reduced to the resource name it chooses to fetch from the graph agent. -/
def query_neo4j_natural_resource (query : String) : String :=
  let query_lower := strLower query
  if ["esquema", "estructura", "labels"].any (fun w => strContainsSub query_lower w) then
    "graph_schema"
  else if ["estadísticas", "stats", "resumen"].any (fun w => strContainsSub query_lower w) then
    "graph_stats"
  else if ["nodos", "nodes"].any (fun w => strContainsSub query_lower w) then
    "nodes_by_label"
  else if ["relaciones", "relationships"].any (fun w => strContainsSub query_lower w) then
    "relationships_by_type"
  else
    "graph_stats"

/-- `OrchestratorAgent._query_postgres_natural` (orchestrator.py:382-397),
reduced to the resource name it chooses to fetch from the relational
agent. -/
def query_postgres_natural_resource (query : String) : String :=
  let query_lower := strLower query
  if ["esquema", "estructura", "tablas"].any (fun w => strContainsSub query_lower w) then
    "database_schema"
  else if ["estadísticas", "stats", "resumen"].any (fun w => strContainsSub query_lower w) then
    "table_statistics"
  else if ["columnas", "columns"].any (fun w => strContainsSub query_lower w) then
    "columns_info"
  else if ["relaciones", "foreign keys"].any (fun w => strContainsSub query_lower w) then
    "table_relationships"
  else
    "database_schema"

/-! ### Capability protocol (mcp/base.py, agents' handle_request) -/

/-- `MCPMessageType` (mcp/base.py:11-15). -/
inductive MCPMessageType where
  | request
  | response
  | notification
deriving DecidableEq

/-- The `params` mapping of a protocol message, with the keys the handlers
read.  A missing key models `dict.get` returning `None`. -/
structure MCPParams (V : Type _) where
  resource_name : Option String := none
  tool_name : Option String := none
  tool_params : Option (List (String × V)) := none

/-- `MCPMessage` (mcp/base.py:17-25). -/
structure MCPMessage (V : Type _) where
  id : String
  type : MCPMessageType
  method : String
  params : Option (MCPParams V) := none
  result : Option V := none
  error : Option String := none

/-- An agent's capability registry as `handle_request` consults it.  Each
resource is the outcome of awaiting its zero-argument provider; each tool
is a function from the supplied keyword arguments to an outcome
(`.error` covering both a raising tool body and a keyword mismatch).
`suffixFound`/`suffixMethod` capture the only difference between
`Neo4jAgent.handle_request` (both empty) and
`OrchestratorAgent.handle_request` (" en orquestador" / " por
orquestador") in the error texts. -/
structure AgentRegistry (V : Type _) where
  name : String
  resources : List (String × Except String V)
  tools : List (String × (List (String × V) → Except String V))
  suffixFound : String := ""
  suffixMethod : String := ""

/-- Renders an optional parameter the way an f-string renders it
(`None` when absent). -/
def optName (o : Option String) : String :=
  match o with
  | some s => s
  | none => "None"

/-- `Neo4jAgent.handle_request` (neo4j_agent.py:116-181) and
`OrchestratorAgent.handle_request` (orchestrator.py:616-680): dispatch on
the method, answer not-found lookups with an error response, and convert
any exception raised by the body (including by a resource provider or tool
function) into an error response via the surrounding try/except — so a
response message is always returned and nothing propagates across the
protocol boundary. -/
def handle_request {V : Type _} (agent : AgentRegistry V) (msg : MCPMessage V) :
    MCPMessage V :=
  let body : Except String (MCPMessage V) :=
    if msg.method = "get_resource" then
      match msg.params with
      | none => .error "AttributeError: NoneType object has no attribute get"
      | some p =>
        match p.resource_name with
        | some n =>
          match lookupDict agent.resources n with
          | some res =>
            match res with
            | .ok v => .ok { id := msg.id, type := .response, method := msg.method, result := some v }
            | .error e => .error e
          | none =>
            .ok { id := msg.id, type := .response, method := msg.method,
                  error := some ("Recurso " ++ n ++ " no encontrado" ++ agent.suffixFound) }
        | none =>
          .ok { id := msg.id, type := .response, method := msg.method,
                error := some ("Recurso " ++ optName p.resource_name ++ " no encontrado" ++
                               agent.suffixFound) }
    else if msg.method = "execute_tool" then
      match msg.params with
      | none => .error "AttributeError: NoneType object has no attribute get"
      | some p =>
        match p.tool_name with
        | some n =>
          match lookupDict agent.tools n with
          | some toolFn =>
            match toolFn (p.tool_params.getD []) with
            | .ok v => .ok { id := msg.id, type := .response, method := msg.method, result := some v }
            | .error e => .error e
          | none =>
            .ok { id := msg.id, type := .response, method := msg.method,
                  error := some ("Herramienta " ++ n ++ " no encontrada" ++ agent.suffixFound) }
        | none =>
          .ok { id := msg.id, type := .response, method := msg.method,
                error := some ("Herramienta " ++ optName p.tool_name ++ " no encontrada" ++
                               agent.suffixFound) }
    else
      .ok { id := msg.id, type := .response, method := msg.method,
            error := some ("Método " ++ msg.method ++ " no soportado" ++ agent.suffixMethod) }
  match body with
  | .ok resp => resp
  | .error e => { id := msg.id, type := .response, method := msg.method, error := some e }

/-- The Analysis invariant of the spec's data model:
`needs_both ⇒ needs_graph ∧ needs_relational`. -/
def AnalysisInv (r : AnalysisResult) : Prop :=
  r.needs_both = true → r.needs_graph = true ∧ r.needs_relational = true

/-- The same invariant on the remote-stage dict (backend flag names as in
`gemini_client.py`). -/
def GeminiInv (v : GeminiAnalysis) : Prop :=
  v.needs_both = true → v.needs_neo4j = true ∧ v.needs_postgresql = true

/-! ### Concrete fixtures used by witnesses -/

/-- A hybrid both-agents analysis (strategy-table row 1). -/
def aSeqAnalysis : OrchestratorAnalysis :=
  { original_query := "q"
    needs_graph := true
    needs_relational := true
    needs_both := true
    complexity := "hybrid"
    identified_patterns := []
    suggested_agents := ["neo4j", "postgres"]
    analysis_method := "llm"
    confidence := 0.9 }

/-- A simple both-agents analysis (strategy-table row 2). -/
def aParAnalysis : OrchestratorAnalysis :=
  { aSeqAnalysis with complexity := "simple" }

/-- A single-agent analysis (strategy-table row 3). -/
def aSingleAnalysis : OrchestratorAnalysis :=
  { aSeqAnalysis with
    needs_both := false
    complexity := "simple"
    suggested_agents := ["postgres"] }

/-- A two-agent analysis without `needs_both` (strategy-table row 4). -/
def aPar2Analysis : OrchestratorAnalysis :=
  { aSeqAnalysis with
    needs_both := false
    complexity := "simple" }

/-- A concrete always-raising tool body. -/
def boomTool : List (String × Nat) → Except String Nat :=
  fun _ => .error "boom"

/-- A small concrete registry: one resource, one always-raising tool. -/
def witnessAgent : AgentRegistry Nat :=
  { name := "neo4j"
    resources := [("graph_schema", .ok 1)]
    tools := [("boom_tool", boomTool)] }

/-- A request for an unregistered resource. -/
def msgUnknownResource : MCPMessage Nat :=
  { id := "m1", type := .request, method := "get_resource",
    params := some { resource_name := some "nope" } }

/-- A request for an unregistered tool. -/
def msgUnknownTool : MCPMessage Nat :=
  { id := "m2", type := .request, method := "execute_tool",
    params := some { tool_name := some "nope" } }

/-- A request invoking the registered raising tool. -/
def msgBoomTool : MCPMessage Nat :=
  { id := "m3", type := .request, method := "execute_tool",
    params := some { tool_name := some "boom_tool", tool_params := some [] } }

/-- The (result, state) pair of one concrete classification from
`stReady`, used by the C2 witness. -/
def c2RunPair : AnalysisResult × AnalyzerState :=
  ((analyze_query stReady "hello" [] true (.failure "x")).toOption).getD
    (sampleAnalysis, stReady)

/-! ## Theorems -/

/-- Inserting under a key makes that key retrievable with the inserted
value, whether the key was already present (in-place replacement) or not
(append). -/
theorem lookupDict_dictInsert_self {β : Type _} (l : List (String × β)) (k : String) (v : β) :
    lookupDict (dictInsert l k v) k = some v := by
  induction l with
  | nil => simp [dictInsert, lookupDict]
  | cons p rest ih =>
    by_cases hp : p.1 = k
    · simp [dictInsert, List.any_cons, hp, lookupDict]
    · cases hr : rest.any (fun q => q.1 == k) with
      | true =>
        have ih' : lookupDict (rest.map (fun q => if q.1 = k then (k, v) else q)) k = some v := by
          simpa [dictInsert, hr] using ih
        simp [dictInsert, List.any_cons, hp, hr, lookupDict, ih']
      | false =>
        have ih' : lookupDict (rest ++ [(k, v)]) k = some v := by
          simpa [dictInsert, hr] using ih
        simp [dictInsert, List.any_cons, hp, hr, lookupDict, ih']

/-- A key not among a dict's keys matches no entry. -/
theorem any_key_eq_false {β : Type _} (l : List (String × β)) (k : String)
    (h : k ∉ keysOf l) : l.any (fun p => p.1 == k) = false := by
  rw [List.any_eq_false]
  intro p hp
  simp only [beq_iff_eq]
  intro hpk
  exact h (hpk ▸ List.mem_map_of_mem Prod.fst hp)

/-- The eviction loop leaves strictly fewer than `m` entries whenever
`m` is positive. -/
theorem fifoEvict_length_le (m : Nat) (hm : 1 ≤ m)
    (c : List (String × AnalysisResult)) : (fifoEvict m c).length ≤ m - 1 := by
  induction c with
  | nil => simp [fifoEvict]
  | cons p rest ih =>
    rw [fifoEvict]
    by_cases h : (p :: rest).length ≥ m
    · rw [if_pos h]; exact ih
    · rw [if_neg h]; simp at h ⊢; omega

/-- Below the bound, the eviction loop does nothing. -/
theorem fifoEvict_noop (m : Nat) (c : List (String × AnalysisResult))
    (h : c.length < m) : fifoEvict m c = c := by
  cases c with
  | nil => simp [fifoEvict]
  | cons p rest => rw [fifoEvict, if_neg]; omega

/-- Exactly at the bound, the eviction loop drops precisely the oldest
entry. -/
theorem fifoEvict_eq_tail (m : Nat) (hm : 1 ≤ m) (c : List (String × AnalysisResult))
    (h : c.length = m) : fifoEvict m c = c.tail := by
  cases c with
  | nil => simp at h; omega
  | cons p rest =>
    rw [fifoEvict, if_pos (by omega)]
    exact fifoEvict_noop m rest (by simp at h; omega)

/-- Dict assignment grows the dict by at most one entry. -/
theorem dictInsert_length_le {β : Type _} (l : List (String × β)) (k : String) (v : β) :
    (dictInsert l k v).length ≤ l.length + 1 := by
  unfold dictInsert
  split
  · simp
  · simp

/-- Dict assignment under a fresh key appends. -/
theorem dictInsert_fresh {β : Type _} (l : List (String × β)) (k : String) (v : β)
    (h : k ∉ keysOf l) : dictInsert l k v = l ++ [(k, v)] := by
  unfold dictInsert
  rw [any_key_eq_false l k h]
  simp

/-- One `_cache_result` call never leaves more than the configured
maximum of entries (for a positive maximum). -/
theorem cache_result_length_le (m : Nat) (hm : 1 ≤ m)
    (c : List (String × AnalysisResult)) (k : String) (v : AnalysisResult) :
    (cache_result m c k v).length ≤ m := by
  calc (cache_result m c k v).length
      ≤ (fifoEvict m c).length + 1 := dictInsert_length_le _ _ _
    _ ≤ (m - 1) + 1 := by have := fifoEvict_length_le m hm c; omega
    _ ≤ m := by omega

/-- Inserting a fresh key into a cache below the bound appends the
cleaned value without evicting. -/
theorem cache_result_fresh (m : Nat) (c : List (String × AnalysisResult))
    (k : String) (v : AnalysisResult) (hlen : c.length < m) (hk : k ∉ keysOf c) :
    cache_result m c k v = c ++ [(k, clean_result v)] := by
  unfold cache_result
  rw [fifoEvict_noop m c hlen, dictInsert_fresh c k _ hk]

/-- Folding insertions of pairwise-fresh keys that fit within the bound
appends them in order. -/
theorem cache_fold_fresh (m : Nat) (v : AnalysisResult) (ks : List String) :
    ∀ (c : List (String × AnalysisResult)), ks.Nodup →
    (∀ k ∈ ks, k ∉ keysOf c) → c.length + ks.length ≤ m →
    ks.foldl (fun acc k => cache_result m acc k v) c =
      c ++ ks.map (fun k => (k, clean_result v)) := by
  induction ks with
  | nil => intro c _ _ _; simp
  | cons k rest ih =>
    intro c hnd hdisj hlen
    have hstep : cache_result m c k v = c ++ [(k, clean_result v)] :=
      cache_result_fresh m c k v (by simp at hlen; omega)
        (hdisj k (List.mem_cons_self k rest))
    rw [List.foldl_cons, hstep,
        ih (c ++ [(k, clean_result v)]) (List.Nodup.of_cons hnd) ?fresh ?len]
    · simp
    case fresh =>
      intro k' hk'
      simp only [keysOf, List.map_append, List.mem_append] at *
      rintro (h | h)
      · exact hdisj k' (List.mem_cons_of_mem k hk') h
      · simp at h
        rcases List.nodup_cons.mp hnd with ⟨hk0, _⟩
        exact hk0 (h ▸ hk')
    case len => simp at hlen ⊢; omega

/-- The keys of a constant-value pairing are the pairing's key list. -/
theorem keysOf_map_pair (w : AnalysisResult) (l : List String) :
    keysOf (l.map (fun k => (k, w))) = l := by
  induction l with
  | nil => rfl
  | cons x xs ih => simp [keysOf] at ih ⊢; exact ih

/-- C7: the analysis cache respects its configured bound after any
sequence of insertions, and eviction is strict FIFO: when `N + 1` distinct
keys are inserted into an empty cache of capacity `N`, the first-inserted
key is gone, the remaining `N` keys survive in order, and the cache holds
exactly `N` entries. -/
theorem cache_bound_and_fifo (N : Nat) (hN : 1 ≤ N) (k0 : String) (rest : List String)
    (v : AnalysisResult) (hlen : rest.length = N) (hnd : (k0 :: rest).Nodup) :
    (∀ ops : List (String × AnalysisResult),
      (ops.foldl (fun acc p => cache_result N acc p.1 p.2) []).length ≤ N) ∧
    keysOf ((k0 :: rest).foldl (fun acc k => cache_result N acc k v) []) = rest ∧
    k0 ∉ keysOf ((k0 :: rest).foldl (fun acc k => cache_result N acc k v) []) ∧
    ((k0 :: rest).foldl (fun acc k => cache_result N acc k v) []).length = N := by
  rcases List.nodup_cons.mp hnd with ⟨hk0, hndRest⟩
  have hrestNe : rest ≠ [] := by intro h; rw [h] at hlen; simp at hlen; omega
  have hsplit : rest.dropLast ++ [rest.getLast hrestNe] = rest :=
    List.dropLast_append_getLast hrestNe
  have hdlLen : rest.dropLast.length = N - 1 := by
    rw [List.length_dropLast, hlen]
  have hlast_notmem : rest.getLast hrestNe ∉ rest.dropLast := by
    have hsp := hndRest
    rw [← hsplit] at hsp
    rcases List.nodup_append.mp hsp with ⟨_, _, hdisj⟩
    intro hmem
    exact hdisj hmem (List.mem_singleton_self _)
  have hfirst : cache_result N [] k0 v = [(k0, clean_result v)] :=
    cache_result_fresh N [] k0 v (by simpa using hN) (by simp [keysOf])
  have hmid : rest.dropLast.foldl (fun acc k => cache_result N acc k v)
      [(k0, clean_result v)] =
      (k0, clean_result v) :: rest.dropLast.map (fun k => (k, clean_result v)) := by
    have h := cache_fold_fresh N v rest.dropLast [(k0, clean_result v)]
      (hndRest.sublist (List.dropLast_sublist rest))
      (by
        intro k hk
        simp [keysOf]
        intro hkk0
        exact hk0 (hkk0 ▸ List.dropLast_subset rest hk))
      (by simp [hdlLen]; omega)
    simpa using h
  have hmidLen : ((k0, clean_result v) ::
      rest.dropLast.map (fun k => (k, clean_result v))).length = N := by
    simp [hdlLen]; omega
  have hfinalStep : cache_result N ((k0, clean_result v) ::
      rest.dropLast.map (fun k => (k, clean_result v))) (rest.getLast hrestNe) v =
      rest.dropLast.map (fun k => (k, clean_result v)) ++
        [(rest.getLast hrestNe, clean_result v)] := by
    unfold cache_result
    rw [fifoEvict_eq_tail N hN _ hmidLen]
    simp only [List.tail_cons]
    rw [dictInsert_fresh]
    rw [keysOf_map_pair]
    exact hlast_notmem
  have hfold2 : (rest.dropLast ++ [rest.getLast hrestNe]).foldl
      (fun acc k => cache_result N acc k v) [(k0, clean_result v)] =
      rest.dropLast.map (fun k => (k, clean_result v)) ++
        [(rest.getLast hrestNe, clean_result v)] := by
    rw [List.foldl_append, hmid]
    simpa using hfinalStep
  rw [hsplit] at hfold2
  have hfold : (k0 :: rest).foldl (fun acc k => cache_result N acc k v) [] =
      rest.dropLast.map (fun k => (k, clean_result v)) ++
        [(rest.getLast hrestNe, clean_result v)] := by
    rw [List.foldl_cons, hfirst]
    exact hfold2
  have hkeysFinal : keysOf (rest.dropLast.map (fun k => (k, clean_result v)) ++
      [(rest.getLast hrestNe, clean_result v)]) = rest := by
    have : keysOf (rest.dropLast.map (fun k => (k, clean_result v)) ++
        [(rest.getLast hrestNe, clean_result v)]) =
        keysOf (rest.dropLast.map (fun k => (k, clean_result v))) ++
          [rest.getLast hrestNe] := by
      simp [keysOf]
    rw [this, keysOf_map_pair]
    exact hsplit
  refine ⟨?bound, ?keys, ?absent, ?len⟩
  case bound =>
    intro ops
    have main : ∀ (c : List (String × AnalysisResult)), c.length ≤ N →
        (ops.foldl (fun acc p => cache_result N acc p.1 p.2) c).length ≤ N := by
      induction ops with
      | nil => intro c hc; simpa using hc
      | cons op more ih =>
        intro c _
        rw [List.foldl_cons]
        exact ih _ (cache_result_length_le N hN c op.1 op.2)
    exact main [] (by simp)
  case keys =>
    rw [hfold]
    exact hkeysFinal
  case absent =>
    rw [hfold, hkeysFinal]
    exact hk0
  case len =>
    rw [hfold]
    simp [hdlLen]
    omega

/-- Witness for C7: capacity 2, three distinct keys — the first key is
evicted and the two later ones remain, cache size 2. -/
theorem cache_bound_and_fifo_witness :
    keysOf ((["a", "b", "c"].foldl
      (fun acc k => cache_result 2 acc k sampleAnalysis) [])) = ["b", "c"] ∧
    (["a", "b", "c"].foldl
      (fun acc k => cache_result 2 acc k sampleAnalysis) []).length = 2 :=
  ⟨(cache_bound_and_fifo 2 (by decide) "a" ["b", "c"] sampleAnalysis
      (by decide) (by decide)).2.1,
   (cache_bound_and_fifo 2 (by decide) "a" ["b", "c"] sampleAnalysis
      (by decide) (by decide)).2.2.2⟩

/-- C3: the strategy selector realizes the spec's decision table:
needs_both with hybrid complexity gives `sequential`; needs_both with any
other complexity gives `parallel`; a single suggested agent without
needs_both gives `single_agent`; everything else gives `parallel`. -/
theorem strategy_selector_table (a : OrchestratorAnalysis) :
    (a.needs_both = true → a.complexity = "hybrid" →
      determine_execution_strategy a = "sequential") ∧
    (a.needs_both = true → a.complexity ≠ "hybrid" →
      determine_execution_strategy a = "parallel") ∧
    (a.needs_both = false → a.suggested_agents.length = 1 →
      determine_execution_strategy a = "single_agent") ∧
    (a.needs_both = false → a.suggested_agents.length ≠ 1 →
      determine_execution_strategy a = "parallel") := by
  refine ⟨?_, ?_, ?_, ?_⟩ <;> intro h1 h2 <;>
    simp [determine_execution_strategy, h1, h2]

/-- Witness for C3: all four rows of the table at concrete analyses. -/
theorem strategy_selector_table_witness :
    determine_execution_strategy aSeqAnalysis = "sequential" ∧
    determine_execution_strategy aParAnalysis = "parallel" ∧
    determine_execution_strategy aSingleAnalysis = "single_agent" ∧
    determine_execution_strategy aPar2Analysis = "parallel" :=
  ⟨(strategy_selector_table aSeqAnalysis).1 rfl rfl,
   (strategy_selector_table aParAnalysis).2.1 rfl (by decide),
   (strategy_selector_table aSingleAnalysis).2.2.1 rfl (by decide),
   (strategy_selector_table aPar2Analysis).2.2.2 rfl (by decide)⟩

/-- C4: in a parallel execution over both agents where exactly one task
raises, the call still completes: the successful agent's data appears
under its id, the failing agent contributes an error entry, and
`agents_used` lists both (either way round). -/
theorem parallel_partial_failure {V : Type _} (suggested : List String) (d : V) (e : String)
    (h1 : "neo4j" ∈ suggested) (h2 : "postgres" ∈ suggested) :
    execute_parallel suggested (Except.error e) (Except.ok d) =
      { results := [("neo4j", .errorEntry e), ("postgres", .data d)],
        agents_used := ["neo4j", "postgres"], strategy := "parallel" } ∧
    execute_parallel suggested (Except.ok d) (Except.error e) =
      { results := [("neo4j", .data d), ("postgres", .errorEntry e)],
        agents_used := ["neo4j", "postgres"], strategy := "parallel" } := by
  constructor <;> simp [execute_parallel, h1, h2]

/-- Witness for C4: a concrete two-agent parallel run where the graph
task raises. -/
theorem parallel_partial_failure_witness :
    execute_parallel ["neo4j", "postgres"] (Except.error "boom") (Except.ok (7 : Nat)) =
      { results := [("neo4j", .errorEntry "boom"), ("postgres", .data 7)],
        agents_used := ["neo4j", "postgres"], strategy := "parallel" } :=
  (parallel_partial_failure ["neo4j", "postgres"] 7 "boom" (by decide) (by decide)).1

/-- C5 counterexample: with suggested agents
`["postgres", "neo4j", "mysql"]` — a set that is *not* exactly
\x7brelational, graph\x7d, since it has a member equal to neither id —
the step list has two entries, not the empty list the claim requires for
every agent set other than the exact pair. -/
theorem sequential_other_set_not_empty :
    ("mysql" ∈ (["postgres", "neo4j", "mysql"] : List String) ∧
      ¬ ("mysql" = "postgres" ∨ "mysql" = "neo4j")) ∧
    (execute_sequential "q" ([] : List (String × Nat)) ["postgres", "neo4j", "mysql"]
        (fun _ _ => 0) (fun _ _ => 0)).results.length = 2 :=
  ⟨⟨by decide, by decide⟩, rfl⟩

/-- C5 (amended): a sequential execution whose suggested agents contain
both `postgres` and `neo4j` — regardless of further entries — produces
exactly the two ordered steps, relational first, and the graph step's
input context is the caller's context extended with the relational raw
output under the key `postgres_data`; when either agent is missing, the
step list and `agents_used` are empty. -/
theorem sequential_enrichment (V : Type _) (query : String) (context : List (String × V))
    (suggested : List String) (postgresCall neo4jCall : String → List (String × V) → V) :
    ("postgres" ∈ suggested → "neo4j" ∈ suggested →
      execute_sequential query context suggested postgresCall neo4jCall =
        { results := [{ agent := "postgres", result := postgresCall query context },
                      { agent := "neo4j", result := neo4jCall query
                          (dictInsert context "postgres_data" (postgresCall query context)) }],
          agents_used := ["postgres", "neo4j"], strategy := "sequential" } ∧
      lookupDict (dictInsert context "postgres_data" (postgresCall query context))
          "postgres_data" = some (postgresCall query context)) ∧
    ("postgres" ∉ suggested ∨ "neo4j" ∉ suggested →
      (execute_sequential query context suggested postgresCall neo4jCall).results = [] ∧
      (execute_sequential query context suggested postgresCall neo4jCall).agents_used = []) := by
  constructor
  · intro h1 h2
    exact ⟨by simp [execute_sequential, h1, h2],
           lookupDict_dictInsert_self context "postgres_data" (postgresCall query context)⟩
  · intro h
    rcases h with h | h <;> simp [execute_sequential, h]

/-- Witness for C5 (amended): the exact pair, with a context carrying one
key, produces the two enriched steps. -/
theorem sequential_enrichment_witness :
    execute_sequential "q" [("caller", 5)] ["postgres", "neo4j"]
        (fun _ _ => 1) (fun _ c => c.length) =
      { results := [{ agent := "postgres", result := 1 },
                    { agent := "neo4j", result := 2 }],
        agents_used := ["postgres", "neo4j"], strategy := "sequential" } := by
  have h := (sequential_enrichment Nat "q" [("caller", 5)] ["postgres", "neo4j"]
    (fun _ _ => 1) (fun _ c => c.length) ).1 (by decide) (by decide)
  simpa [dictInsert] using h.1

/-- C10: when the classifier raises into the orchestrator (as it does
whenever its lazy initialization fails), `_analyze_query` answers the
relational-only `emergency_default` analysis — routing the query to the
relational agent alone via `single_agent` — unlike the classifier's own
emergency stage, which selects both agents. -/
theorem orchestrator_emergency_default (query e : String) :
    (orchestrator_analyze_query query (.error e)).needs_relational = true ∧
    (orchestrator_analyze_query query (.error e)).needs_graph = false ∧
    (orchestrator_analyze_query query (.error e)).needs_both = false ∧
    (orchestrator_analyze_query query (.error e)).complexity = "simple" ∧
    (orchestrator_analyze_query query (.error e)).suggested_agents = ["postgres"] ∧
    (orchestrator_analyze_query query (.error e)).analysis_method = "emergency_default" ∧
    (orchestrator_analyze_query query (.error e)).confidence = 0.5 ∧
    (emergency_analysis query).suggested_agents = ["neo4j", "postgres"] ∧
    determine_execution_strategy (orchestrator_analyze_query query (.error e)) = "single_agent" ∧
    (∀ ctx remote, analyze_query (mkPatternAnalyzer 100) query ctx false remote
        = .error "No se pudo inicializar el analizador IA") :=
  ⟨rfl, rfl, rfl, rfl, rfl, rfl, rfl, rfl, rfl, fun _ _ => rfl⟩

/-- C1 (code defect): with the remote stage unavailable and the cache
empty, `analyze_query` answers the *emergency* result (confidence 0.5)
even though the heuristic decision logic was reachable — first because
`self.fallback_patterns` was never created (`AttributeError` inside the
heuristic stage), and, independently, because even with the pattern
tables restored the increment of the never-created
`stats["fallback_queries"]` key raises `KeyError` *after* the heuristic
completed, discarding its result.  The claim expects
(`fallback`, 0.7). -/
theorem heuristic_path_forces_emergency :
    (analyze_query stNoLlm "hello" [] true (.failure "x")).toOption.map
        (fun p => (p.1.analysis_method, p.1.confidence)) = some ("emergency", 0.5) ∧
    (analyze_query stNoLlmWithPatterns "hello" [] true (.failure "x")).toOption.map
        (fun p => (p.1.analysis_method, p.1.confidence)) = some ("emergency", 0.5) :=
  ⟨rfl, rfl⟩

/-- C6 (code defect): case/whitespace variants of a query do share one
cache key, but the cached fast path is unreachable: the first
classification already fails internally (the `fallback_only` attribute
read raises) and returns an uncached emergency result, so the second,
equivalent query is classified `emergency` again — not `cache` — and
`cache_hits` stays 0. -/
theorem cache_normalization_but_no_hit :
    generate_cache_key "Hello" [] = generate_cache_key "  hello " [] ∧
    classifyTwice "Hello" "  hello " = some ("emergency", "emergency", 0.5, 0) :=
  ⟨by decide, rfl⟩

/-- A successful dict lookup locates a stored pair. -/
theorem lookupDict_mem {β : Type _} (l : List (String × β)) (k : String) (v : β)
    (h : lookupDict l k = some v) : (k, v) ∈ l := by
  induction l with
  | nil => simp [lookupDict] at h
  | cons p rest ih =>
    rcases p with ⟨pk, pv⟩
    by_cases hp : pk = k
    · subst hp
      have h' : pv = v := by simpa [lookupDict] using h
      subst h'
      exact List.mem_cons_self _ _
    · have h' : lookupDict rest k = some v := by simpa [lookupDict, hp] using h
      exact List.mem_cons_of_mem _ (ih h')

/-- Every entry surviving eviction was already in the cache. -/
theorem fifoEvict_subset (m : Nat) (c : List (String × AnalysisResult))
    (p : String × AnalysisResult) (h : p ∈ fifoEvict m c) : p ∈ c := by
  induction c with
  | nil => simp [fifoEvict] at h
  | cons q rest ih =>
    rw [fifoEvict] at h
    by_cases hge : (q :: rest).length ≥ m
    · rw [if_pos hge] at h
      exact List.mem_cons_of_mem q (ih h)
    · rwa [if_neg hge] at h

/-- Every entry of a dict after assignment is the assigned pair or an
original entry. -/
theorem dictInsert_mem {β : Type _} (l : List (String × β)) (k : String) (v : β)
    (p : String × β) (h : p ∈ dictInsert l k v) : p = (k, v) ∨ p ∈ l := by
  unfold dictInsert at h
  split at h
  · rcases List.mem_map.mp h with ⟨q, hq, hfq⟩
    by_cases hqk : q.1 = k
    · rw [if_pos hqk] at hfq
      exact Or.inl hfq.symm
    · rw [if_neg hqk] at hfq
      exact Or.inr (hfq ▸ hq)
  · rcases List.mem_append.mp h with h | h
    · exact Or.inr h
    · simp at h
      exact Or.inl h

/-- Stripping the transient fields does not touch the routing flags. -/
theorem clean_result_inv (r : AnalysisResult) (h : AnalysisInv r) :
    AnalysisInv (clean_result r) := by
  simpa [AnalysisInv, clean_result] using h

/-- `_validate_analysis_result` re-enforces the invariant on every object
it accepts. -/
theorem validate_inv (r : GeminiRaw) (v : GeminiAnalysis)
    (h : validate_analysis_result r = .ok v) : GeminiInv v := by
  rcases r with ⟨np, nn, nb, comp, reas, sa⟩
  cases np <;> cases nn <;> cases nb <;> cases comp <;> cases reas <;>
    simp [validate_analysis_result, requireField, Bind.bind, Except.bind] at h
  rcases h with rfl
  intro hb
  simp at hb
  simp [hb]

/-- The keyword fallback of the Gemini client also satisfies the
invariant. -/
theorem fallback_intent_inv (q : String) : GeminiInv (fallback_intent_analysis q) := by
  unfold GeminiInv fallback_intent_analysis
  dsimp only
  split <;> intro hb <;> simp_all

/-- Everything `analyze_query_intent` can return satisfies the
invariant. -/
theorem analyze_query_intent_inv (remote : RemoteOutcome) (q : String) :
    GeminiInv (analyze_query_intent remote q) := by
  cases remote with
  | failure msg => simpa [analyze_query_intent] using fallback_intent_inv q
  | parsed raw =>
    cases hv : validate_analysis_result raw with
    | ok v => simpa [analyze_query_intent, hv] using validate_inv raw v hv
    | error e => simpa [analyze_query_intent, hv] using fallback_intent_inv q

/-- The remote-path mapping into the orchestrator format transports the
invariant. -/
theorem analyze_with_llm_inv (v : GeminiAnalysis) (q : String) (h : GeminiInv v) :
    AnalysisInv (analyze_with_llm v q) := by
  simpa [AnalysisInv, analyze_with_llm] using h

/-- Every result the heuristic stage can produce satisfies the
invariant. -/
theorem analyze_with_fallback_inv (st : AnalyzerState) (q : String) (r : AnalysisResult)
    (h : analyze_with_fallback st q = .ok r) : AnalysisInv r := by
  unfold analyze_with_fallback at h
  cases hp : st.fallback_patterns with
  | none => rw [hp] at h; cases h
  | some pats =>
    rw [hp] at h
    simp only at h
    repeat' split at h
    all_goals (cases h; intro hb; simp_all)

/-- The emergency analysis satisfies the invariant. -/
theorem emergency_analysis_inv (q : String) : AnalysisInv (emergency_analysis q) := by
  intro hb
  exact ⟨rfl, rfl⟩

/-- The heuristic arm of the try-block only returns invariant-satisfying
results, and never touches the cache. -/
theorem heuristicStage_inv (st : AnalyzerState) (q : String) (res : AnalysisResult)
    (st1 : AnalyzerState) (h : heuristicStage st q = .ok (res, st1)) :
    AnalysisInv res ∧ st1.analysis_cache = st.analysis_cache := by
  unfold heuristicStage at h
  cases hf : analyze_with_fallback st q with
  | error e => rw [hf] at h; cases h
  | ok r =>
    rw [hf] at h
    simp only at h
    cases hs : st.stats_fallback_queries with
    | none => rw [hs] at h; cases h
    | some n =>
      rw [hs] at h
      cases h
      constructor
      · have := analyze_with_fallback_inv st q r hf
        simpa [AnalysisInv] using this
      · rfl

/-- The try-block only returns invariant-satisfying results, and never
touches the cache. -/
theorem tryStage_inv (st : AnalyzerState) (q : String) (remote : RemoteOutcome)
    (res : AnalysisResult) (st1 : AnalyzerState)
    (h : tryStage st q remote = .ok (res, st1)) :
    AnalysisInv res ∧ st1.analysis_cache = st.analysis_cache := by
  by_cases hl : st.llm_available = true
  · cases hfo : st.fallback_only with
    | none =>
      have heq : tryStage st q remote =
          .error "AttributeError: PatternAnalyzer object has no attribute fallback_only" := by
        simp [tryStage, hl, hfo]
      rw [heq] at h
      cases h
    | some fo =>
      cases fo with
      | false =>
        have heq : tryStage st q remote =
            .ok ({ analyze_with_llm (analyze_query_intent remote q) q with
                     analysis_method := "llm", confidence := 0.9 },
                 { st with stats_llm_queries := st.stats_llm_queries + 1 }) := by
          simp [tryStage, hl, hfo]
        rw [heq] at h
        cases h
        constructor
        · have := analyze_with_llm_inv (analyze_query_intent remote q) q
            (analyze_query_intent_inv remote q)
          simpa [AnalysisInv] using this
        · rfl
      | true =>
        have heq : tryStage st q remote = heuristicStage st q := by
          simp [tryStage, hl, hfo]
        rw [heq] at h
        exact heuristicStage_inv st q res st1 h
  · have hl' : st.llm_available = false := by simpa using hl
    have heq : tryStage st q remote = heuristicStage st q := by
      simp [tryStage, hl']
    rw [heq] at h
    exact heuristicStage_inv st q res st1 h

/-- C2: every Analysis that any classifier path can return — remote,
heuristic, emergency, or cache hit — satisfies
`needs_both ⇒ needs_graph ∧ needs_relational`, and the invariant is
preserved on every entry of the cache. -/
theorem classifier_invariant (st : AnalyzerState) (query : String)
    (ctx : List (String × String)) (geminiOk : Bool) (remote : RemoteOutcome)
    (r : AnalysisResult) (st' : AnalyzerState)
    (hcache : ∀ p ∈ st.analysis_cache, AnalysisInv p.2)
    (h : analyze_query st query ctx geminiOk remote = .ok (r, st')) :
    AnalysisInv r ∧ ∀ p ∈ st'.analysis_cache, AnalysisInv p.2 := by
  unfold analyze_query at h
  cases hInit : (if st.initialized then Except.ok st else initializeAnalyzer st geminiOk :
      Except String AnalyzerState) with
  | error e => rw [hInit] at h; cases h
  | ok stI =>
    rw [hInit] at h
    have hcEq : stI.analysis_cache = st.analysis_cache := by
      by_cases hi : st.initialized = true
      · rw [if_pos hi] at hInit; cases hInit; rfl
      · rw [if_neg hi] at hInit
        unfold initializeAnalyzer at hInit
        rw [if_neg hi] at hInit
        by_cases hg : geminiOk = true
        · rw [if_pos hg] at hInit; cases hInit; rfl
        · rw [if_neg hg] at hInit; cases hInit
    simp only at h
    cases hlk : lookupDict stI.analysis_cache (generate_cache_key query ctx) with
    | some cached =>
      rw [hlk] at h
      cases h
      constructor
      · have hmem := lookupDict_mem _ _ _ hlk
        rw [hcEq] at hmem
        have := hcache _ hmem
        simpa [AnalysisInv] using this
      · intro p hp
        exact hcache p (by rw [← hcEq]; exact hp)
    | none =>
      rw [hlk] at h
      cases htry : tryStage { stI with stats_total_queries := stI.stats_total_queries + 1 }
          query remote with
      | ok pair =>
        rcases pair with ⟨res, st1⟩
        rw [htry] at h
        cases h
        rcases tryStage_inv _ _ _ _ _ htry with ⟨hres, hst1⟩
        refine ⟨hres, ?_⟩
        intro p hp
        simp only at hp
        rcases dictInsert_mem _ _ _ _ hp with hnew | hold
        · rw [hnew]
          exact clean_result_inv _ hres
        · have hmem := fifoEvict_subset _ _ _ hold
          rw [hst1] at hmem
          simp only at hmem
          rw [hcEq] at hmem
          exact hcache _ hmem
      | error e =>
        rw [htry] at h
        cases h
        constructor
        · have := emergency_analysis_inv query
          simpa [AnalysisInv] using this
        · intro p hp
          simp only at hp
          exact hcache p (by rw [← hcEq]; exact hp)

/-- Witness for C2: the invariant holds of a concrete classification from
the ready state (whose cache is empty). -/
theorem classifier_invariant_witness : AnalysisInv c2RunPair.1 :=
  (classifier_invariant stReady "hello" [] true (.failure "x") c2RunPair.1 c2RunPair.2
    (by simp [stReady, mkPatternAnalyzer]) rfl).1

/-- C8: every protocol request gets a response message back — the handler
never raises across the protocol boundary.  A `get_resource` request for
an unregistered name and an `execute_tool` request for an unregistered
tool each yield a response whose error field is set and whose result is
unset; when a registered tool's function raises, the failure comes back
as the response's error field. -/
theorem protocol_errors_returned_as_data {V : Type _} (agent : AgentRegistry V) :
    (∀ msg : MCPMessage V, (handle_request agent msg).type = .response) ∧
    (∀ (msg : MCPMessage V) (p : MCPParams V) (n : String),
      msg.method = "get_resource" → msg.params = some p → p.resource_name = some n →
      lookupDict agent.resources n = none →
      (handle_request agent msg).error.isSome = true ∧
        (handle_request agent msg).result = none) ∧
    (∀ (msg : MCPMessage V) (p : MCPParams V) (n : String),
      msg.method = "execute_tool" → msg.params = some p → p.tool_name = some n →
      lookupDict agent.tools n = none →
      (handle_request agent msg).error.isSome = true ∧
        (handle_request agent msg).result = none) ∧
    (∀ (msg : MCPMessage V) (p : MCPParams V) (n : String)
      (f : List (String × V) → Except String V) (e : String),
      msg.method = "execute_tool" → msg.params = some p → p.tool_name = some n →
      lookupDict agent.tools n = some f → f (p.tool_params.getD []) = .error e →
      (handle_request agent msg).error = some e ∧
        (handle_request agent msg).result = none) := by
  refine ⟨?always, ?res404, ?tool404, ?toolRaise⟩
  case always =>
    intro msg
    by_cases h1 : msg.method = "get_resource"
    · cases hp : msg.params with
      | none => simp [handle_request, h1, hp]
      | some p =>
        cases hn : p.resource_name with
        | none => simp [handle_request, h1, hp, hn]
        | some n =>
          cases hlk : lookupDict agent.resources n with
          | none => simp [handle_request, h1, hp, hn, hlk]
          | some res =>
            cases res with
            | ok v => simp [handle_request, h1, hp, hn, hlk]
            | error e => simp [handle_request, h1, hp, hn, hlk]
    · by_cases h2 : msg.method = "execute_tool"
      · cases hp : msg.params with
        | none => simp [handle_request, h1, h2, hp]
        | some p =>
          cases hn : p.tool_name with
          | none => simp [handle_request, h1, h2, hp, hn]
          | some n =>
            cases hlk : lookupDict agent.tools n with
            | none => simp [handle_request, h1, h2, hp, hn, hlk]
            | some f =>
              cases hf : f (p.tool_params.getD []) with
              | ok v => simp [handle_request, h1, h2, hp, hn, hlk, hf]
              | error e => simp [handle_request, h1, h2, hp, hn, hlk, hf]
      · simp [handle_request, h1, h2]
  case res404 =>
    intro msg p n hm hp hn hlk
    constructor <;> simp [handle_request, hm, hp, hn, hlk]
  case tool404 =>
    intro msg p n hm hp hn hlk
    constructor <;> simp [handle_request, hm, hp, hn, hlk]
  case toolRaise =>
    intro msg p n f e hm hp hn hlk hf
    constructor <;> simp [handle_request, hm, hp, hn, hlk, hf]

/-- Witness for C8: the concrete registry answers an unknown resource, an
unknown tool, and a raising tool with error-carrying responses. -/
theorem protocol_errors_returned_as_data_witness :
    (handle_request witnessAgent msgUnknownResource).error.isSome = true ∧
    (handle_request witnessAgent msgUnknownTool).error.isSome = true ∧
    (handle_request witnessAgent msgBoomTool).error = some "boom" :=
  ⟨((protocol_errors_returned_as_data witnessAgent).2.1 msgUnknownResource
      { resource_name := some "nope" } "nope" rfl rfl rfl
      (by simp [witnessAgent, lookupDict])).1,
   ((protocol_errors_returned_as_data witnessAgent).2.2.1 msgUnknownTool
      { tool_name := some "nope" } "nope" rfl rfl rfl
      (by simp [witnessAgent, lookupDict])).1,
   ((protocol_errors_returned_as_data witnessAgent).2.2.2 msgBoomTool
      { tool_name := some "boom_tool", tool_params := some [] } "boom_tool"
      boomTool "boom" rfl rfl rfl
      (by simp [witnessAgent, lookupDict]) rfl).1⟩

/-- C9 (code defect): for "show me the graph schema" with the remote
stage unavailable, the classifier returns the emergency analysis (both
agents, `needs_both`), the selector therefore picks `parallel` — not
`single_agent` — and the graph-side natural-language translator, whose
schema keywords are Spanish ("esquema", "estructura") plus "labels",
matches nothing in this query and falls back to the `graph_stats`
resource instead of `graph_schema`. -/
theorem graph_schema_scenario_diverges :
    (analyze_query stNoLlm "show me the graph schema" [] true (.failure "x")).toOption.map
        (fun p => (p.1.analysis_method, p.1.needs_both, p.1.suggested_agents))
      = some ("emergency", true, ["neo4j", "postgres"]) ∧
    determine_execution_strategy (orchestrator_analyze_query "show me the graph schema"
        ((analyze_query stNoLlm "show me the graph schema" [] true (.failure "x")).map
          Prod.fst)) = "parallel" ∧
    query_neo4j_natural_resource "show me the graph schema" = "graph_stats" :=
  ⟨rfl, rfl, by decide⟩

end IDA
